import Mathlib

/-!
Verification of the flight-search data pipeline: normalization of raw
offers, multi-dimensional filtering, stable sorting, price-histogram
aggregation, and pagination.  JavaScript numbers are modeled as rationals,
timestamps as abstract instants carrying the epoch value and the
local hour of day, and a thrown TypeError as the value none.
-/

/-- Model of a JavaScript Date instance: getTime returns the epoch
milliseconds, getHours the hour of day in local time (0 to 23).  The
local hour is kept as a field because it depends on the environment
timezone and is otherwise not derivable from the instant. -/
structure JSDate where
  millis : Int
  localHour : Nat
deriving DecidableEq

/-- Departure or arrival record of a segment.  The ISO timestamp string
consumed through the Date constructor is modeled as the parsed instant. -/
structure SegmentPoint where
  atTime : JSDate
deriving DecidableEq

/-- One non-stop leg: a carrier code plus departure and arrival records. -/
structure Segment where
  carrierCode : String
  departure : SegmentPoint
  arrival : SegmentPoint
deriving DecidableEq

/-- Result of matching an ISO-8601 duration string against the pattern
PT(digits H)?(digits M)?: none when the pattern does not match at all,
otherwise the two optional numeric groups. -/
structure ISODuration where
  matched : Option (Option Nat × Option Nat)
deriving DecidableEq

/-- Source parseDuration: on a failed match return 0, otherwise
hours * 60 + minutes with absent groups read as 0. -/
def parseDuration (duration : ISODuration) : Nat :=
  match duration.matched with
  | none => 0
  | some (hours, minutes) => hours.getD 0 * 60 + minutes.getD 0

/-- One itinerary: an ISO duration string and a segment sequence. -/
structure Itinerary where
  duration : ISODuration
  segments : List Segment
deriving DecidableEq

/-- Price record of an offer; the decimal string total is modeled as the
numeric value that parseFloat extracts from it. -/
structure PriceInfo where
  total : ℚ
deriving DecidableEq

/-- Raw flight offer as consumed by the normalizer. -/
structure FlightOffer where
  id : String
  itineraries : List Itinerary
  price : PriceInfo
deriving DecidableEq

/-- Enriched flight: the raw offer fields (spread in the source) plus the
derived scalar fields computed by processFlightOffer. -/
structure ProcessedFlight extends FlightOffer where
  totalDuration : Nat
  totalStops : Nat
  mainAirline : String
  departureTime : JSDate
  arrivalTime : JSDate
  priceNumeric : ℚ
deriving DecidableEq

/-- Source processFlightOffer.  Reading a property of undefined (first
itinerary of an empty itinerary list, or first/last segment of an empty
segment list) throws a TypeError in the source; the thrown exception is
modeled as none.  On success the offer is spread into the result together
with the derived fields. -/
def processFlightOffer (offer : FlightOffer) : Option ProcessedFlight :=
  match offer.itineraries with
  | [] => none
  | firstItinerary :: _ =>
    match firstItinerary.segments with
    | [] => none
    | firstSegment :: restSegments =>
      let lastSegment := (firstSegment :: restSegments).getLast (by simp)
      let totalDuration :=
        offer.itineraries.foldl
          (fun total itinerary => total + parseDuration itinerary.duration) 0
      let totalStops := (firstSegment :: restSegments).length - 1
      some { offer with
        totalDuration := totalDuration
        totalStops := totalStops
        mainAirline := firstSegment.carrierCode
        departureTime := firstSegment.departure.atTime
        arrivalTime := lastSegment.arrival.atTime
        priceNumeric := offer.price.total }

/-- Source rawData.data.map(processFlightOffer): an exception thrown while
mapping one offer aborts the whole map, so the batch result is none as
soon as any single offer fails. -/
def processBatch (offers : List FlightOffer) : Option (List ProcessedFlight) :=
  offers.mapM processFlightOffer

/-- Filter state: both-inclusive ranges plus discrete selections.  The
stop selection holds the labels 0, 1 and 2+ as strings, as in the source. -/
structure FilterState where
  priceRange : ℚ × ℚ
  stops : List String
  airlines : List String
  departureTimeRange : Nat × Nat
  arrivalTimeRange : Nat × Nat
  duration : ℚ × ℚ
deriving DecidableEq

/-- Stop-count label used by the stops filter in applyFilters. -/
def stopCategory (totalStops : Nat) : String :=
  if totalStops = 0 then "0" else if totalStops = 1 then "1" else "2+"

/-- Predicate of the source applyFilters callback, written as the same
early-return chain: each failed check returns false, and the two discrete
checks only apply when their selection is non-empty. -/
def flightMatchesFilters (filters : FilterState) (flight : ProcessedFlight) : Bool :=
  if flight.priceNumeric < filters.priceRange.1 ∨
      flight.priceNumeric > filters.priceRange.2 then false
  else if 0 < filters.stops.length ∧
      stopCategory flight.totalStops ∉ filters.stops then false
  else if 0 < filters.airlines.length ∧
      flight.mainAirline ∉ filters.airlines then false
  else if flight.departureTime.localHour < filters.departureTimeRange.1 ∨
      flight.departureTime.localHour > filters.departureTimeRange.2 then false
  else if flight.arrivalTime.localHour < filters.arrivalTimeRange.1 ∨
      flight.arrivalTime.localHour > filters.arrivalTimeRange.2 then false
  else if (flight.totalDuration : ℚ) < filters.duration.1 ∨
      (flight.totalDuration : ℚ) > filters.duration.2 then false
  else true

/-- Source applyFilters: keep exactly the flights passing every check. -/
def applyFilters (flights : List ProcessedFlight) (filters : FilterState) :
    List ProcessedFlight :=
  flights.filter (fun flight => flightMatchesFilters filters flight)

/-- Spread minimum of a non-empty argument list, as in Math.min applied to
a spread array; the empty case never occurs at the call sites (they are
guarded), so its value is irrelevant and fixed to 0. -/
def listMin (l : List ℚ) : ℚ :=
  match l with
  | [] => 0
  | x :: xs => xs.foldl min x

/-- Spread maximum, see listMin. -/
def listMax (l : List ℚ) : ℚ :=
  match l with
  | [] => 0
  | x :: xs => xs.foldl max x

/-- Result record of calculatePriceStats. -/
structure PriceStats where
  lowest : ℚ
  highest : ℚ
  average : ℚ
deriving DecidableEq

/-- Source calculatePriceStats: zero statistics on an empty list,
otherwise min, max and arithmetic mean of the numeric prices. -/
def calculatePriceStats (flights : List ProcessedFlight) : PriceStats :=
  if flights.length = 0 then { lowest := 0, highest := 0, average := 0 }
  else
    let prices := flights.map (fun f => f.priceNumeric)
    { lowest := listMin prices
      highest := listMax prices
      average := prices.foldl (fun sum price => sum + price) 0 / prices.length }

/-- Source getPriceRange: fixed fallback pair on an empty list, otherwise
the floored minimum and ceiled maximum of the numeric prices. -/
def getPriceRange (flights : List ProcessedFlight) : ℚ × ℚ :=
  if flights.length = 0 then (0, 1000)
  else
    let prices := flights.map (fun f => f.priceNumeric)
    ((⌊listMin prices⌋ : ℚ), (⌈listMax prices⌉ : ℚ))

/-- Source getDurationRange: fixed fallback pair on an empty list,
otherwise the floored minimum and ceiled maximum of the total durations. -/
def getDurationRange (flights : List ProcessedFlight) : ℚ × ℚ :=
  if flights.length = 0 then (0, 1440)
  else
    let durations := flights.map (fun f => (f.totalDuration : ℚ))
    ((⌊listMin durations⌋ : ℚ), (⌈listMax durations⌉ : ℚ))

/-- Derived boolean of useFlightFilters: some dimension differs from the
defaults built from the full flight set of the current search. -/
def hasActiveFilters (flights : List ProcessedFlight) (filters : FilterState) : Bool :=
  let initialPriceRange := getPriceRange flights
  let initialDurationRange := getDurationRange flights
  decide (0 < filters.stops.length) ||
  decide (0 < filters.airlines.length) ||
  decide (filters.priceRange.1 ≠ initialPriceRange.1) ||
  decide (filters.priceRange.2 ≠ initialPriceRange.2) ||
  decide (filters.departureTimeRange.1 ≠ 0) ||
  decide (filters.departureTimeRange.2 ≠ 23) ||
  decide (filters.arrivalTimeRange.1 ≠ 0) ||
  decide (filters.arrivalTimeRange.2 ≠ 23) ||
  decide (filters.duration.1 ≠ initialDurationRange.1) ||
  decide (filters.duration.2 ≠ initialDurationRange.2)

/-- Sort fields offered by useFlightSort. -/
inductive SortField where
  | price
  | duration
  | departure
deriving DecidableEq

/-- Sort directions offered by useFlightSort. -/
inductive SortDirection where
  | asc
  | desc
deriving DecidableEq

/-- Numeric comparison computed in the switch of the sort callback:
difference of the two compared field values. -/
def comparison (field : SortField) (a b : ProcessedFlight) : ℚ :=
  match field with
  | .price => a.priceNumeric - b.priceNumeric
  | .duration => (a.totalDuration : ℚ) - (b.totalDuration : ℚ)
  | .departure => (a.departureTime.millis : ℚ) - (b.departureTime.millis : ℚ)

/-- Return value of the sort callback: the comparison for ascending
direction, its negation for descending. -/
def sortComparator (field : SortField) (direction : SortDirection)
    (a b : ProcessedFlight) : ℚ :=
  match direction with
  | .asc => comparison field a b
  | .desc => -(comparison field a b)

/-- Key actually compared for a given field; the comparison above is the
difference of the keys of the two flights. -/
def sortKey (field : SortField) (f : ProcessedFlight) : ℚ :=
  match field with
  | .price => f.priceNumeric
  | .duration => (f.totalDuration : ℚ)
  | .departure => (f.departureTime.millis : ℚ)

/-- Source useFlightSort: copy the array and sort it with the comparator.
Array.prototype.sort is specified to be stable and, with a consistent
comparator, to order the result so that the comparator of any in-order
pair is non-positive; the stable sorted permutation of a list is unique,
so merge sort with the relation comparator at most 0 is the exact model. -/
def sortedFlights (field : SortField) (direction : SortDirection)
    (flights : List ProcessedFlight) : List ProcessedFlight :=
  flights.mergeSort (fun a b => decide (sortComparator field direction a b ≤ 0))

/-- Chart data point produced by generatePriceData; the ISO date string is
abstracted as the departure instant it is formatted from. -/
structure PriceDataPoint where
  price : ℚ
  dateInstant : JSDate
  airline : String
  stops : Nat
deriving DecidableEq

/-- Source generatePriceData: project each flight to its chart point. -/
def generatePriceData (flights : List ProcessedFlight) : List PriceDataPoint :=
  flights.map (fun flight =>
    { price := flight.priceNumeric
      dateInstant := flight.departureTime
      airline := flight.mainAirline
      stops := flight.totalStops })

/-- Price trend record assembled by usePriceTrend. -/
structure PriceTrend where
  current : List PriceDataPoint
  filtered : List PriceDataPoint
  lowest : ℚ
  highest : ℚ
  average : ℚ
deriving DecidableEq

/-- Source usePriceTrend: chart points for both sets plus statistics of
the filtered set only. -/
def usePriceTrend (allFlights filteredFlights : List ProcessedFlight) : PriceTrend :=
  let stats := calculatePriceStats filteredFlights
  { current := generatePriceData allFlights
    filtered := generatePriceData filteredFlights
    lowest := stats.lowest
    highest := stats.highest
    average := stats.average }

/-- Numeric ascending sort used on the two price arrays in the chart,
modeled like sortedFlights by a stable merge sort over the comparator. -/
def sortNumAsc (l : List ℚ) : List ℚ :=
  l.mergeSort (fun a b => decide (a - b ≤ 0))

/-- Bucket start assigned to a price: floor of price over 50, times 50. -/
def bucketOf (price : ℚ) : Int :=
  ⌊price / 50⌋ * 50

/-- Keys created by the bucket loop: from lo up to hi in steps of the
bucket size 50, written as the loop runs in the source. -/
def bucketKeys (lo hi : Int) : List Int :=
  if hi < lo then [] else lo :: bucketKeys (lo + 50) hi
termination_by (hi + 1 - lo).toNat
decreasing_by
  simp_wf
  omega

/-- One row of the chart data: bucket start price and the two counts. -/
structure ChartPoint where
  price : Int
  allFlights : Nat
  filtered : Nat
deriving DecidableEq

/-- Source chartData of PriceChart: guard the empty case, sort both price
arrays, derive the bucket bounds from the all-flights prices (floored and
ceiled to multiples of the bucket size 50), create the buckets, and count
each price into the bucket containing it; a price whose bucket key was
never created is dropped by the membership guard, which the per-key count
below reproduces.  The isFinite guard of the source is vacuous here since
rational bounds are always finite. -/
def chartData (current filtered : List PriceDataPoint) : List ChartPoint :=
  if current.length = 0 then []
  else
    let allPrices := sortNumAsc (current.map (fun d => d.price))
    let filteredPrices := sortNumAsc (filtered.map (fun d => d.price))
    if allPrices.length = 0 then []
    else
      let lo := ⌊listMin allPrices / 50⌋ * 50
      let hi := ⌈listMax allPrices / 50⌉ * 50
      (bucketKeys lo hi).map (fun b =>
        { price := b
          allFlights := allPrices.countP (fun p => bucketOf p == b)
          filtered := filteredPrices.countP (fun p => bucketOf p == b) })

/-- Fixed page size of the results page. -/
def pageSize : Nat := 10

/-- Source totalFilteredPages: ceiling of the item count over the page
size, computed with real division in the source. -/
def totalFilteredPages (count : Nat) : Int :=
  ⌈(count : ℚ) / (pageSize : ℚ)⌉

/-- Source paginatedSortedFlights: slice of the sorted collection from
startIdx to endIdx, with a 1-based page index. -/
def paginatedSortedFlights (currentPage : Nat) (sorted : List ProcessedFlight) :
    List ProcessedFlight :=
  (sorted.drop ((currentPage - 1) * pageSize)).take pageSize

/-- Dependencies of the page-reset effect: the three search fields the
effect watches. -/
structure SearchKey where
  origin : String
  destination : String
  departureDate : String
deriving DecidableEq

/-- Page-relevant component state: the watched search key and the
currentPage state variable. -/
structure PageUiState where
  searchKey : SearchKey
  currentPage : Nat
deriving DecidableEq

/-- State changes that can affect the page index: a change of the search
fields, a change of the size of the filtered and sorted collection
(through filters or sort), or an explicit page selection. -/
inductive UiEvent where
  | searchChange (key : SearchKey)
  | resultsResize (newCount : Nat)
  | pageSelect (page : Nat)

/-- Page-index state logic of FlightSearchPage: the reset effect sets the
page to 1 when its watched dependencies change; no code runs on a resize
of the filtered and sorted collection, so the page is left as is; a page
selection stores the selected page. -/
def stepPage (s : PageUiState) (e : UiEvent) : PageUiState :=
  match e with
  | .searchChange key =>
    if key = s.searchKey then s else { searchKey := key, currentPage := 1 }
  | .resultsResize _ => s
  | .pageSelect page => { s with currentPage := page }

/-- Helper for C1: the filter callback accepts a flight exactly when the
conjunction of all six dimension conditions holds. -/
theorem flightMatchesFilters_eq_true_iff (filters : FilterState)
    (f : ProcessedFlight) :
    flightMatchesFilters filters f = true ↔
      (filters.priceRange.1 ≤ f.priceNumeric ∧
        f.priceNumeric ≤ filters.priceRange.2) ∧
      (filters.stops ≠ [] → stopCategory f.totalStops ∈ filters.stops) ∧
      (filters.airlines ≠ [] → f.mainAirline ∈ filters.airlines) ∧
      (filters.departureTimeRange.1 ≤ f.departureTime.localHour ∧
        f.departureTime.localHour ≤ filters.departureTimeRange.2) ∧
      (filters.arrivalTimeRange.1 ≤ f.arrivalTime.localHour ∧
        f.arrivalTime.localHour ≤ filters.arrivalTimeRange.2) ∧
      (filters.duration.1 ≤ (f.totalDuration : ℚ) ∧
        (f.totalDuration : ℚ) ≤ filters.duration.2) := by
  unfold flightMatchesFilters
  split_ifs with h1 h2 h3 h4 h5 h6
  · simp only [false_iff]
    rintro ⟨⟨hl, hr⟩, -⟩
    rcases h1 with h | h
    · exact absurd hl (not_le.mpr h)
    · exact absurd hr (not_le.mpr h)
  · simp only [false_iff]
    rintro ⟨-, hstops, -⟩
    exact h2.2 (hstops (List.length_pos.mp h2.1))
  · simp only [false_iff]
    rintro ⟨-, -, hair, -⟩
    exact h3.2 (hair (List.length_pos.mp h3.1))
  · simp only [false_iff]
    rintro ⟨-, -, -, ⟨hd1, hd2⟩, -⟩
    rcases h4 with h | h <;> omega
  · simp only [false_iff]
    rintro ⟨-, -, -, -, ⟨ha1, ha2⟩, -⟩
    rcases h5 with h | h <;> omega
  · simp only [false_iff]
    rintro ⟨-, -, -, -, -, hdl, hdr⟩
    rcases h6 with h | h
    · exact absurd hdl (not_le.mpr h)
    · exact absurd hdr (not_le.mpr h)
  · simp only [true_iff]
    push_neg at h1 h2 h3 h4 h5 h6
    refine ⟨⟨h1.1, h1.2⟩, ?_, ?_, ⟨h4.1, h4.2⟩, ⟨h5.1, h5.2⟩, ⟨h6.1, h6.2⟩⟩
    · intro hs
      exact h2 (List.length_pos.mpr hs)
    · intro ha
      exact h3 (List.length_pos.mpr ha)

/-- C1: applyFilters retains a flight iff its price is inside the
inclusive price range, a non-empty stops selection contains the label of
its stop count, a non-empty airline selection contains its main airline,
its departure and arrival hours are inside their inclusive ranges, and
its total duration is inside the inclusive duration range. -/
theorem applyFilters_retains_iff (flights : List ProcessedFlight)
    (filters : FilterState) (f : ProcessedFlight) :
    f ∈ applyFilters flights filters ↔
      f ∈ flights ∧
      ((filters.priceRange.1 ≤ f.priceNumeric ∧
        f.priceNumeric ≤ filters.priceRange.2) ∧
      (filters.stops ≠ [] → stopCategory f.totalStops ∈ filters.stops) ∧
      (filters.airlines ≠ [] → f.mainAirline ∈ filters.airlines) ∧
      (filters.departureTimeRange.1 ≤ f.departureTime.localHour ∧
        f.departureTime.localHour ≤ filters.departureTimeRange.2) ∧
      (filters.arrivalTimeRange.1 ≤ f.arrivalTime.localHour ∧
        f.arrivalTime.localHour ≤ filters.arrivalTimeRange.2) ∧
      (filters.duration.1 ≤ (f.totalDuration : ℚ) ∧
        (f.totalDuration : ℚ) ≤ filters.duration.2)) := by
  rw [applyFilters, List.mem_filter]
  exact and_congr_right (fun _ => flightMatchesFilters_eq_true_iff filters f)

/-- Helper: the switch of the sort callback computes the difference of the
sort keys of the two flights. -/
theorem comparison_eq_sub (field : SortField) (a b : ProcessedFlight) :
    comparison field a b = sortKey field a - sortKey field b := by
  cases field <;> rfl

/-- Helper: the comparator is non-positive exactly when the keys are
ordered according to the direction. -/
theorem sortComparator_nonpos_iff (field : SortField) (direction : SortDirection)
    (a b : ProcessedFlight) :
    sortComparator field direction a b ≤ 0 ↔
      (match direction with
        | .asc => sortKey field a ≤ sortKey field b
        | .desc => sortKey field b ≤ sortKey field a) := by
  cases direction <;>
    simp [sortComparator, comparison_eq_sub, sub_nonpos, neg_nonpos, sub_nonneg]

/-- Helper: the comparator relation is transitive. -/
theorem sortLe_trans (field : SortField) (direction : SortDirection) :
    ∀ a b c : ProcessedFlight,
      decide (sortComparator field direction a b ≤ 0) →
      decide (sortComparator field direction b c ≤ 0) →
      decide (sortComparator field direction a c ≤ 0) := by
  intro a b c hab hbc
  simp only [decide_eq_true_iff, sortComparator_nonpos_iff] at *
  cases direction <;> simp only at * <;> linarith

/-- Helper: the comparator relation is total. -/
theorem sortLe_total (field : SortField) (direction : SortDirection) :
    ∀ a b : ProcessedFlight,
      (decide (sortComparator field direction a b ≤ 0) ||
        decide (sortComparator field direction b a ≤ 0)) = true := by
  intro a b
  simp only [Bool.or_eq_true, decide_eq_true_iff, sortComparator_nonpos_iff]
  cases direction <;> simp only <;> exact le_total _ _

/-- C4: sorting is a pure permutation of the input (the source copies the
array before sorting, and the model is a pure function of the input), and
it is stable: for every key value, the flights carrying that sort key
appear in the output in exactly their input order. -/
theorem useFlightSort_stable (field : SortField) (direction : SortDirection)
    (flights : List ProcessedFlight) (k : ℚ) :
    List.Perm (sortedFlights field direction flights) flights ∧
      (sortedFlights field direction flights).filter
          (fun f => sortKey field f == k) =
        flights.filter (fun f => sortKey field f == k) := by
  constructor
  · exact List.mergeSort_perm flights _
  · set le := fun a b : ProcessedFlight =>
      decide (sortComparator field direction a b ≤ 0) with hle
    set p := fun f : ProcessedFlight => sortKey field f == k with hp
    have hkey : ∀ a ∈ flights.filter p, sortKey field a = k := by
      intro a ha
      have := List.of_mem_filter ha
      simpa [hp] using this
    have hpair : (flights.filter p).Pairwise (fun a b => le a b = true) := by
      refine List.pairwise_of_forall_mem_list ?_
      intro a ha b hb
      have hka := hkey a ha
      have hkb := hkey b hb
      simp only [hle, decide_eq_true_iff, sortComparator_nonpos_iff]
      cases direction <;> simp only [hka, hkb, le_refl]
    have hsub : List.Sublist (flights.filter p) flights := List.filter_sublist flights
    have h1 : List.Sublist (flights.filter p) (flights.mergeSort le) :=
      List.sublist_mergeSort (sortLe_trans field direction)
        (sortLe_total field direction) hpair hsub
    have h2 : List.Perm ((flights.mergeSort le).filter p) (flights.filter p) :=
      (List.mergeSort_perm flights le).filter p
    have h3 : (flights.filter p).filter p = flights.filter p :=
      List.filter_eq_self.mpr (fun a ha => List.of_mem_filter ha)
    have h4 : List.Sublist (flights.filter p) ((flights.mergeSort le).filter p) := by
      have := h1.filter p
      rwa [h3] at this
    exact (h4.eq_of_length h2.length_eq.symm).symm

/-- Helper: when every flight has the same price, sorting by price leaves
the list unchanged for either direction, because the comparator is zero on
every pair and the stable sort keeps the input order. -/
theorem sortedFlights_price_of_constant (direction : SortDirection)
    (flights : List ProcessedFlight) (c : ℚ)
    (hall : ∀ f ∈ flights, f.priceNumeric = c) :
    sortedFlights .price direction flights = flights := by
  apply List.mergeSort_of_sorted
  refine List.pairwise_of_forall_mem_list ?_
  intro a ha b hb
  simp only [decide_eq_true_iff, sortComparator_nonpos_iff]
  cases direction <;> simp only [sortKey, hall a ha, hall b hb, le_refl]

/-- Concrete flight used in scenario counterexamples: price 120, with the
identifier and stop count varying so the flights are distinguishable. -/
def mkTestFlight (ident : String) (stops : Nat) : ProcessedFlight :=
  { id := ident
    itineraries := []
    price := { total := 120 }
    totalDuration := 0
    totalStops := stops
    mainAirline := "AA"
    departureTime := { millis := 0, localHour := 0 }
    arrivalTime := { millis := 0, localHour := 0 }
    priceNumeric := 120 }

/-- Five pairwise distinct flights, all priced 120. -/
def testFlights5 : List ProcessedFlight :=
  [mkTestFlight "f1" 0, mkTestFlight "f2" 1, mkTestFlight "f3" 2,
    mkTestFlight "f4" 3, mkTestFlight "f5" 4]

/-- C5 counterexample: on five distinct flights all priced 120, sorting by
price descending does not return the reverse of the ascending order; both
orders equal the input order because the sort is stable. -/
theorem sort_price_desc_not_reverse_asc :
    sortedFlights .price .desc testFlights5 ≠
      (sortedFlights .price .asc testFlights5).reverse := by
  have hp : ∀ f ∈ testFlights5, f.priceNumeric = 120 := by
    intro f hf
    fin_cases hf <;> rfl
  rw [sortedFlights_price_of_constant .desc testFlights5 120 hp,
    sortedFlights_price_of_constant .asc testFlights5 120 hp]
  intro h
  have hmap := congrArg (List.map (fun f => f.totalStops)) h
  simp [testFlights5, mkTestFlight] at hmap

/-- C5 amended: for an input of 5 flights all priced 120, sorting by price
descending returns the same sequence as sorting ascending, namely the
input order itself; it is not the reverse of the ascending order. -/
theorem sort_price_all_equal_desc_eq_asc (flights : List ProcessedFlight)
    (hlen : flights.length = 5)
    (hprice : ∀ f ∈ flights, f.priceNumeric = 120) :
    sortedFlights .price .desc flights = sortedFlights .price .asc flights ∧
      sortedFlights .price .asc flights = flights := by
  rw [sortedFlights_price_of_constant .desc flights 120 hprice,
    sortedFlights_price_of_constant .asc flights 120 hprice]
  exact ⟨rfl, rfl⟩

/-- Witness for C5 amended at the concrete five-flight input. -/
theorem sort_price_all_equal_desc_eq_asc_witness :
    testFlights5.length = 5 ∧ (∀ f ∈ testFlights5, f.priceNumeric = 120) ∧
      (sortedFlights .price .desc testFlights5 =
          sortedFlights .price .asc testFlights5 ∧
        sortedFlights .price .asc testFlights5 = testFlights5) := by
  have hp : ∀ f ∈ testFlights5, f.priceNumeric = 120 := by
    intro f hf
    fin_cases hf <;> rfl
  exact ⟨rfl, hp, sort_price_all_equal_desc_eq_asc testFlights5 rfl hp⟩

/-- Helper: the ceiling of count over the page size, computed with real
division in the source, equals ceiling division of naturals. -/
theorem totalFilteredPages_eq_natCeil (count : Nat) :
    totalFilteredPages count = (((count + pageSize - 1) / pageSize : Nat) : Int) := by
  unfold totalFilteredPages pageSize
  set n : Nat := (count + 10 - 1) / 10 with hdef
  have hb1 : count ≤ n * 10 := by omega
  have hb2 : n * 10 < count + 10 := by omega
  rw [Int.ceil_eq_iff]
  simp only [Nat.cast_ofNat]
  constructor
  · rw [lt_div_iff₀ (by norm_num : (0:ℚ) < 10)]
    have hq : (n : ℚ) * 10 < (count : ℚ) + 10 := by exact_mod_cast hb2
    push_cast
    linarith
  · rw [div_le_iff₀ (by norm_num : (0:ℚ) < 10)]
    have hq : (count : ℚ) ≤ (n : ℚ) * 10 := by exact_mod_cast hb1
    push_cast
    linarith

/-- Helper: concatenating the first k page slices yields the first
k * pageSize elements of the collection. -/
theorem pages_flatten_take (l : List ProcessedFlight) (k : Nat) :
    ((List.range k).map (fun i => paginatedSortedFlights (i + 1) l)).flatten =
      l.take (k * pageSize) := by
  induction k with
  | zero => simp
  | succ k ih =>
    rw [List.range_succ, List.map_append, List.flatten_append]
    simp only [List.map_cons, List.map_nil, List.flatten_cons, List.flatten_nil,
      List.append_nil]
    rw [ih, paginatedSortedFlights, Nat.add_sub_cancel,
      show (k + 1) * pageSize = k * pageSize + pageSize from by ring,
      List.take_add]

/-- C8: the total page count is the ceiling of the filtered-sorted count
over the page size; the page slices are the consecutive windows of the
collection, so that concatenating pages 1 through totalPages reproduces
the whole collection; and with 23 flights there are 3 pages and page 3
holds exactly 3 flights. -/
theorem pagination_window (l : List ProcessedFlight) :
    totalFilteredPages l.length =
        (((l.length + pageSize - 1) / pageSize : Nat) : Int) ∧
      ((List.range ((l.length + pageSize - 1) / pageSize)).map
          (fun i => paginatedSortedFlights (i + 1) l)).flatten = l ∧
      (l.length = 23 →
        totalFilteredPages l.length = 3 ∧
          (paginatedSortedFlights 3 l).length = 3) := by
  refine ⟨totalFilteredPages_eq_natCeil l.length, ?_, ?_⟩
  · rw [pages_flatten_take]
    apply List.take_of_length_le
    unfold pageSize
    omega
  · intro h23
    constructor
    · rw [totalFilteredPages_eq_natCeil, h23]
      rfl
    · simp only [paginatedSortedFlights, List.length_take, List.length_drop, h23]
      rfl

/-- Twenty-three identical flights, enough to fill two pages and put three
flights on the third. -/
def testFlights23 : List ProcessedFlight :=
  List.replicate 23 (mkTestFlight "p" 0)

/-- Witness for C8 at the 23-flight input. -/
theorem pagination_window_witness :
    testFlights23.length = 23 ∧
      (totalFilteredPages testFlights23.length = 3 ∧
        (paginatedSortedFlights 3 testFlights23).length = 3) := by
  have h : testFlights23.length = 23 := by simp [testFlights23]
  exact ⟨h, (pagination_window testFlights23).2.2 h⟩

/-- C3 counterexample: with the page index at 3 and the filtered/sorted
collection shrunk to 5 flights (one page), the state logic leaves the
index at 3, strictly above max 1 totalPages, so no clamping happens. -/
theorem page_not_clamped_on_resize :
    max 1 (totalFilteredPages 5) <
      (((stepPage
          { searchKey :=
              { origin := "JFK", destination := "LAX",
                departureDate := "2026-01-01" },
            currentPage := 3 }
          (UiEvent.resultsResize 5)).currentPage : Nat) : Int) := by
  rw [totalFilteredPages_eq_natCeil]
  norm_num [stepPage, pageSize]

/-- C3 amended: the page index is reset to 1 exactly when the watched
search key changes; a change in the size of the filtered/sorted collection
leaves it unchanged (no clamping), and when the unclamped index exceeds
the total page count the rendered page slice is empty. -/
theorem page_index_transition (s : PageUiState) (key : SearchKey) (n : Nat)
    (l : List ProcessedFlight) :
    (stepPage s (UiEvent.resultsResize n)).currentPage = s.currentPage ∧
      (key ≠ s.searchKey →
        (stepPage s (UiEvent.searchChange key)).currentPage = 1) ∧
      (key = s.searchKey → stepPage s (UiEvent.searchChange key) = s) ∧
      (totalFilteredPages l.length < (s.currentPage : Int) →
        paginatedSortedFlights s.currentPage l = []) := by
  refine ⟨rfl, ?_, ?_, ?_⟩
  · intro hne
    simp [stepPage, hne]
  · intro heq
    simp [stepPage, heq]
  · intro h
    rw [totalFilteredPages_eq_natCeil] at h
    have hnat : (l.length + pageSize - 1) / pageSize < s.currentPage := by
      exact_mod_cast h
    unfold paginatedSortedFlights
    have hlen : l.length ≤ (s.currentPage - 1) * pageSize := by
      unfold pageSize at *
      omega
    rw [List.drop_eq_nil_of_le hlen, List.take_nil]

/-- Concrete page state used by the C3 witness: page 7 with a fixed key. -/
def testPageState : PageUiState :=
  { searchKey := { origin := "a", destination := "b", departureDate := "c" }
    currentPage := 7 }

/-- Search key differing from the key of testPageState. -/
def testKeyNew : SearchKey :=
  { origin := "x", destination := "b", departureDate := "c" }

/-- Witness for C3 amended: concrete state with page 7, a differing and an
equal search key, and a 23-flight collection (3 pages, below page 7). -/
theorem page_index_transition_witness :
    (stepPage testPageState (UiEvent.resultsResize 5)).currentPage = 7 ∧
      (stepPage testPageState (UiEvent.searchChange testKeyNew)).currentPage = 1 ∧
      stepPage testPageState (UiEvent.searchChange testPageState.searchKey) =
        testPageState ∧
      paginatedSortedFlights 7 testFlights23 = [] := by
  have t1 := page_index_transition testPageState testKeyNew 5 testFlights23
  have t2 := page_index_transition testPageState testPageState.searchKey 5
    testFlights23
  refine ⟨t1.1, t1.2.1 (by decide), t2.2.2.1 rfl, ?_⟩
  have h7 : testPageState.currentPage = 7 := rfl
  refine h7 ▸ t1.2.2.2 ?_
  rw [show testFlights23.length = 23 from by simp [testFlights23],
    totalFilteredPages_eq_natCeil]
  decide

/-- Malformed raw offer: its first itinerary has no segments, so the
source normalizer dereferences undefined and throws. -/
def badOffer : FlightOffer :=
  { id := "bad"
    itineraries := [{ duration := { matched := some (some 2, some 30) }
                      segments := [] }]
    price := { total := 199 } }

/-- Well-formed raw offer with one single-segment itinerary. -/
def goodOffer : FlightOffer :=
  { id := "good"
    itineraries :=
      [{ duration := { matched := some (some 2, some 30) }
         segments :=
           [{ carrierCode := "AA"
              departure := { atTime := { millis := 0, localHour := 9 } }
              arrival := { atTime := { millis := 9000000, localHour := 11 } } }] }]
    price := { total := 150 } }

/-- C6 evidence: the normalizer does not fail fast with an explicit error
on the malformed offer; it throws (modeled as none), and because the batch
is processed with a plain map, the single bad offer aborts the whole
batch even though the good offer on its own normalizes fine. -/
theorem processFlightOffer_crash_aborts_batch :
    processFlightOffer badOffer = none ∧
      (processFlightOffer goodOffer).isSome = true ∧
      processBatch [goodOffer, badOffer] = none := by
  refine ⟨rfl, rfl, ?_⟩
  rfl

/-- Modelled from the spec (for the C9 comparison): default price bounds
as the spec words them, namely the minimum and maximum observed prices
themselves, with the same fallback pair on an empty set; the source
getPriceRange floors the minimum and ceils the maximum instead. -/
def specDefaultPriceRange (flights : List ProcessedFlight) : ℚ × ℚ :=
  if flights.length = 0 then (0, 1000)
  else
    let prices := flights.map (fun f => f.priceNumeric)
    (listMin prices, listMax prices)

/-- Modelled from the spec (for the C9 comparison): default duration
bounds as the spec words them, the observed minimum and maximum. -/
def specDefaultDurationRange (flights : List ProcessedFlight) : ℚ × ℚ :=
  if flights.length = 0 then (0, 1440)
  else
    let durations := flights.map (fun f => (f.totalDuration : ℚ))
    (listMin durations, listMax durations)

/-- Flight with the fractional price 100.5, on which the floored and
ceiled bounds differ from the observed minimum and maximum. -/
def fractionalFlight : ProcessedFlight :=
  { id := "frac"
    itineraries := []
    price := { total := 201 / 2 }
    totalDuration := 60
    totalStops := 0
    mainAirline := "AA"
    departureTime := { millis := 0, localHour := 9 }
    arrivalTime := { millis := 0, localHour := 11 }
    priceNumeric := 201 / 2 }

/-- Filter state equal to the defaults the code computes for the single
fractional flight: price range (100, 101), duration range (60, 60), full
hour ranges, empty selections. -/
def testFiltersFrac : FilterState :=
  { priceRange := (100, 101)
    stops := []
    airlines := []
    departureTimeRange := (0, 23)
    arrivalTimeRange := (0, 23)
    duration := (60, 60) }

/-- Helper: the code defaults for the fractional flight. -/
theorem getPriceRange_fractional :
    getPriceRange [fractionalFlight] = (100, 101) := by
  have hfl : ⌊(201:ℚ)/2⌋ = (100:ℤ) := by
    rw [Int.floor_eq_iff]
    norm_num
  have hce : ⌈(201:ℚ)/2⌉ = (101:ℤ) := by
    rw [Int.ceil_eq_iff]
    norm_num
  unfold getPriceRange
  norm_num [fractionalFlight, listMin, listMax, Prod.ext_iff, hfl, hce]

/-- Helper: the code duration defaults for the fractional flight. -/
theorem getDurationRange_fractional :
    getDurationRange [fractionalFlight] = (60, 60) := by
  unfold getDurationRange
  norm_num [fractionalFlight, listMin, listMax, Prod.ext_iff]

/-- C9 counterexample: with one flight priced 100.5 and the filter state
exactly at the code defaults, hasActiveFilters is false although the price
range differs from the observed minimum and maximum the claim names as
the default, so the claimed equivalence fails at this input. -/
theorem hasActiveFilters_observed_minmax_counterexample :
    ¬(hasActiveFilters [fractionalFlight] testFiltersFrac = true ↔
        (testFiltersFrac.stops ≠ [] ∨ testFiltersFrac.airlines ≠ [] ∨
          testFiltersFrac.priceRange ≠ specDefaultPriceRange [fractionalFlight] ∨
          testFiltersFrac.departureTimeRange ≠ (0, 23) ∨
          testFiltersFrac.arrivalTimeRange ≠ (0, 23) ∨
          testFiltersFrac.duration ≠ specDefaultDurationRange [fractionalFlight])) := by
  intro h
  have hrhs : testFiltersFrac.priceRange ≠ specDefaultPriceRange [fractionalFlight] := by
    unfold specDefaultPriceRange
    norm_num [testFiltersFrac, fractionalFlight, listMin, listMax, Prod.ext_iff]
  have hfalse : hasActiveFilters [fractionalFlight] testFiltersFrac = false := by
    unfold hasActiveFilters
    rw [getPriceRange_fractional, getDurationRange_fractional]
    norm_num [testFiltersFrac]
  rw [hfalse] at h
  exact absurd (h.mpr (Or.inr (Or.inr (Or.inl hrhs)))) (by simp)

/-- C9 amended: hasActiveFilters is true exactly when some dimension
differs from its no-op default, with the price and duration defaults being
the floored minimum and ceiled maximum that getPriceRange and
getDurationRange compute from the full flight set (fallback (0, 1000) and
(0, 1440) on an empty set), the hour defaults (0, 23), and empty discrete
selections. -/
theorem hasActiveFilters_iff (flights : List ProcessedFlight)
    (filters : FilterState) :
    hasActiveFilters flights filters = true ↔
      (filters.stops ≠ [] ∨ filters.airlines ≠ [] ∨
        filters.priceRange ≠ getPriceRange flights ∨
        filters.departureTimeRange ≠ (0, 23) ∨
        filters.arrivalTimeRange ≠ (0, 23) ∨
        filters.duration ≠ getDurationRange flights) := by
  have hpair : ∀ p q : ℚ × ℚ, p ≠ q ↔ (p.1 ≠ q.1 ∨ p.2 ≠ q.2) := by
    intro p q
    rw [Ne, Prod.ext_iff]
    tauto
  have hpairN : ∀ (p : Nat × Nat) (a b : Nat), p ≠ (a, b) ↔ (p.1 ≠ a ∨ p.2 ≠ b) := by
    intro p a b
    rw [Ne, Prod.ext_iff]
    tauto
  unfold hasActiveFilters
  simp only [Bool.or_eq_true, decide_eq_true_iff, hpair, hpairN,
    List.length_pos]
  tauto

/-- Helper: a left fold of min is bounded by its initial value. -/
theorem foldl_min_le (xs : List ℚ) (a : ℚ) : xs.foldl min a ≤ a := by
  induction xs generalizing a with
  | nil => simp
  | cons x xs ih => exact le_trans (ih (min a x)) (min_le_left a x)

/-- Helper: a left fold of min is bounded by every list element. -/
theorem foldl_min_le_mem (xs : List ℚ) (a x : ℚ) (hx : x ∈ xs) :
    xs.foldl min a ≤ x := by
  induction xs generalizing a with
  | nil => cases hx
  | cons y ys ih =>
    rcases List.mem_cons.mp hx with rfl | hmem
    · exact le_trans (foldl_min_le ys (min a x)) (min_le_right a x)
    · exact ih (min a y) hmem

/-- Helper: listMin bounds every member from below. -/
theorem listMin_le (l : List ℚ) (x : ℚ) (hx : x ∈ l) : listMin l ≤ x := by
  cases l with
  | nil => cases hx
  | cons y ys =>
    unfold listMin
    rcases List.mem_cons.mp hx with rfl | hmem
    · exact foldl_min_le ys x
    · exact foldl_min_le_mem ys y x hmem

/-- Helper: a left fold of max dominates its initial value. -/
theorem le_foldl_max (xs : List ℚ) (a : ℚ) : a ≤ xs.foldl max a := by
  induction xs generalizing a with
  | nil => simp
  | cons x xs ih => exact le_trans (le_max_left a x) (ih (max a x))

/-- Helper: a left fold of max dominates every list element. -/
theorem mem_le_foldl_max (xs : List ℚ) (a x : ℚ) (hx : x ∈ xs) :
    x ≤ xs.foldl max a := by
  induction xs generalizing a with
  | nil => cases hx
  | cons y ys ih =>
    rcases List.mem_cons.mp hx with rfl | hmem
    · exact le_trans (le_max_right a x) (le_foldl_max ys (max a x))
    · exact ih (max a y) hmem

/-- Helper: listMax dominates every member. -/
theorem le_listMax (l : List ℚ) (x : ℚ) (hx : x ∈ l) : x ≤ listMax l := by
  cases l with
  | nil => cases hx
  | cons y ys =>
    unfold listMax
    rcases List.mem_cons.mp hx with rfl | hmem
    · exact le_foldl_max ys x
    · exact mem_le_foldl_max ys y x hmem

/-- Helper: membership in the bucket key list is exactly being a key
between the bounds at distance a multiple of the bucket size from lo. -/
theorem mem_bucketKeys_aux : ∀ (n : Nat) (lo hi : Int), (hi + 1 - lo).toNat ≤ n →
    ∀ b : Int, (b ∈ bucketKeys lo hi ↔
      (lo ≤ b ∧ b ≤ hi ∧ (50 : Int) ∣ (b - lo))) := by
  intro n
  induction n with
  | zero =>
    intro lo hi hle b
    have hlt : hi < lo := by omega
    rw [bucketKeys, if_pos hlt]
    simp only [List.not_mem_nil, false_iff]
    rintro ⟨h1, h2, -⟩
    omega
  | succ n ih =>
    intro lo hi hle b
    rw [bucketKeys]
    by_cases hlt : hi < lo
    · rw [if_pos hlt]
      simp only [List.not_mem_nil, false_iff]
      rintro ⟨h1, h2, -⟩
      omega
    · rw [if_neg hlt]
      rw [List.mem_cons, ih (lo + 50) hi (by omega) b]
      constructor
      · rintro (rfl | ⟨h1, h2, k, hk⟩)
        · exact ⟨le_refl _, by omega, ⟨0, by ring⟩⟩
        · exact ⟨by omega, h2, ⟨k + 1, by omega⟩⟩
      · rintro ⟨h1, h2, k, hk⟩
        by_cases hb : b = lo
        · exact Or.inl hb
        · exact Or.inr ⟨by omega, h2, ⟨k - 1, by omega⟩⟩

/-- Helper: membership in bucketKeys, stated without the fuel. -/
theorem mem_bucketKeys (lo hi b : Int) :
    b ∈ bucketKeys lo hi ↔ (lo ≤ b ∧ b ≤ hi ∧ (50 : Int) ∣ (b - lo)) :=
  mem_bucketKeys_aux (hi + 1 - lo).toNat lo hi (le_refl _) b

/-- Helper: the bucket keys are pairwise distinct. -/
theorem bucketKeys_nodup : ∀ (n : Nat) (lo hi : Int), (hi + 1 - lo).toNat ≤ n →
    (bucketKeys lo hi).Nodup := by
  intro n
  induction n with
  | zero =>
    intro lo hi hle
    have hlt : hi < lo := by omega
    rw [bucketKeys, if_pos hlt]
    exact List.nodup_nil
  | succ n ih =>
    intro lo hi hle
    rw [bucketKeys]
    by_cases hlt : hi < lo
    · rw [if_pos hlt]
      exact List.nodup_nil
    · rw [if_neg hlt]
      refine List.nodup_cons.mpr ⟨?_, ih (lo + 50) hi (by omega)⟩
      intro hmem
      have := (mem_bucketKeys (lo + 50) hi lo).mp hmem
      omega

/-- Helper: sums of pointwise sums of two natural maps split. -/
theorem sum_map_add_nat {α : Type} (l : List α) (f g : α → Nat) :
    (l.map (fun a => f a + g a)).sum = (l.map f).sum + (l.map g).sum := by
  induction l with
  | nil => rfl
  | cons a l ih =>
    simp only [List.map_cons, List.sum_cons, ih]
    omega

/-- Helper: summing the indicator of one value over a duplicate-free list
containing it gives exactly one. -/
theorem sum_indicator_one (keys : List Int) (a : Int) (hnd : keys.Nodup)
    (ha : a ∈ keys) :
    (keys.map (fun b => if (a == b) = true then (1:Nat) else 0)).sum = 1 := by
  induction keys with
  | nil => cases ha
  | cons b bs ih =>
    simp only [List.map_cons, List.sum_cons]
    rcases List.mem_cons.mp ha with rfl | hmem
    · have hnot : a ∉ bs := (List.nodup_cons.mp hnd).1
      have hz : (bs.map (fun c => if (a == c) = true then (1:Nat) else 0)).sum = 0 := by
        apply List.sum_eq_zero
        intro x hx
        obtain ⟨c, hc, rfl⟩ := List.mem_map.mp hx
        rw [if_neg]
        simp only [beq_iff_eq]
        intro hrfl
        exact hnot (hrfl ▸ hc)
      rw [hz, if_pos (by simp)]
    · have hne : a ≠ b := by
        intro h
        exact (List.nodup_cons.mp hnd).1 (h ▸ hmem)
      rw [if_neg (by simpa using hne), ih (List.nodup_cons.mp hnd).2 hmem]

/-- Helper: when every price falls into some key of a duplicate-free key
list, the per-key counts sum to the number of prices. -/
theorem sum_countP_buckets (keys : List Int) (prices : List ℚ)
    (hnd : keys.Nodup) (hmem : ∀ p ∈ prices, bucketOf p ∈ keys) :
    (keys.map (fun b => prices.countP (fun p => bucketOf p == b))).sum =
      prices.length := by
  induction prices with
  | nil => simp
  | cons p ps ih =>
    have h1 : ∀ q ∈ ps, bucketOf q ∈ keys := fun q hq =>
      hmem q (List.mem_cons_of_mem _ hq)
    have hm : bucketOf p ∈ keys := hmem p (List.mem_cons_self _ _)
    simp only [List.countP_cons]
    rw [sum_map_add_nat keys (fun b => ps.countP (fun q => bucketOf q == b))
      (fun b => if (bucketOf p == b) = true then 1 else 0)]
    rw [ih h1, sum_indicator_one keys (bucketOf p) hnd hm, List.length_cons]

/-- Helper: the bucket of a price dominating m starts at or above the
floored lower bound computed from m. -/
theorem lo_le_bucketOf {m p : ℚ} (h : m ≤ p) : ⌊m / 50⌋ * 50 ≤ bucketOf p := by
  unfold bucketOf
  have hf : ⌊m / 50⌋ ≤ ⌊p / 50⌋ := Int.floor_le_floor (by gcongr)
  exact mul_le_mul_of_nonneg_right hf (by norm_num)

/-- Helper: the bucket of a price bounded by M starts at or below the
ceiled upper bound computed from M. -/
theorem bucketOf_le_hi {M p : ℚ} (h : p ≤ M) : bucketOf p ≤ ⌈M / 50⌉ * 50 := by
  unfold bucketOf
  have h1 : ⌊p / 50⌋ ≤ ⌊M / 50⌋ := Int.floor_le_floor (by gcongr)
  have h2 : ⌊M / 50⌋ ≤ ⌈M / 50⌉ := Int.floor_le_ceil _
  exact mul_le_mul_of_nonneg_right (le_trans h1 h2) (by norm_num)

/-- Helper: the bucket of any price between the observed bounds is one of
the created bucket keys. -/
theorem bucketOf_mem_bucketKeys {m M : ℚ} (p : ℚ) (h1 : m ≤ p) (h2 : p ≤ M) :
    bucketOf p ∈ bucketKeys (⌊m / 50⌋ * 50) (⌈M / 50⌉ * 50) := by
  rw [mem_bucketKeys]
  refine ⟨lo_le_bucketOf h1, bucketOf_le_hi h2, ⟨⌊p / 50⌋ - ⌊m / 50⌋, ?_⟩⟩
  unfold bucketOf
  ring

/-- Helper: the numeric ascending sort permutes its input. -/
theorem sortNumAsc_perm (l : List ℚ) : List.Perm (sortNumAsc l) l :=
  List.mergeSort_perm l _

/-- Helper: full description of chartData in the non-degenerate case. -/
theorem chartData_eq_of_ne_nil (current filtered : List PriceDataPoint)
    (hne : current ≠ []) :
    chartData current filtered =
      (bucketKeys (⌊listMin (sortNumAsc (current.map (fun d => d.price))) / 50⌋ * 50)
          (⌈listMax (sortNumAsc (current.map (fun d => d.price))) / 50⌉ * 50)).map
        (fun b =>
          { price := b
            allFlights := (sortNumAsc (current.map (fun d => d.price))).countP
              (fun p => bucketOf p == b)
            filtered := (sortNumAsc (filtered.map (fun d => d.price))).countP
              (fun p => bucketOf p == b) }) := by
  have hlen : current.length ≠ 0 := by
    simpa [List.length_eq_zero] using hne
  have hlen2 : (sortNumAsc (current.map (fun d => d.price))).length ≠ 0 := by
    rw [(sortNumAsc_perm _).length_eq, List.length_map]
    exact hlen
  unfold chartData
  rw [if_neg hlen, if_neg hlen2]

/-- Helper: every price of the sorted all-prices array falls in a created
bucket key. -/
theorem all_prices_in_keys (current : List PriceDataPoint) :
    ∀ p ∈ sortNumAsc (current.map (fun d => d.price)),
      bucketOf p ∈ bucketKeys
        (⌊listMin (sortNumAsc (current.map (fun d => d.price))) / 50⌋ * 50)
        (⌈listMax (sortNumAsc (current.map (fun d => d.price))) / 50⌉ * 50) := by
  intro p hp
  exact bucketOf_mem_bucketKeys p (listMin_le _ p hp) (le_listMax _ p hp)

/-- C2 amended: the allCount entries always sum to the size of the
all-flights set; the filteredCount entries sum to the size of the filtered
set when the filtered price list is a sub-multiset of the all-flights
price list (as holds in the pipeline, where the filtered set is a sublist
of the all set). -/
theorem bucket_conservation (current filtered : List PriceDataPoint) :
    ((chartData current filtered).map (fun pt => pt.allFlights)).sum =
        current.length ∧
      (List.Subperm (filtered.map (fun d => d.price))
          (current.map (fun d => d.price)) →
        ((chartData current filtered).map (fun pt => pt.filtered)).sum =
          filtered.length) := by
  by_cases hne : current = []
  · subst hne
    refine ⟨rfl, ?_⟩
    intro hsub
    have hfil : filtered.map (fun d => d.price) = [] :=
      List.subperm_nil.mp (by simpa using hsub)
    have : filtered = [] := by
      cases filtered with
      | nil => rfl
      | cons a l => simp at hfil
    subst this
    rfl
  · rw [chartData_eq_of_ne_nil current filtered hne]
    set A := sortNumAsc (current.map (fun d => d.price)) with hA
    set F := sortNumAsc (filtered.map (fun d => d.price)) with hF
    set keys := bucketKeys (⌊listMin A / 50⌋ * 50) (⌈listMax A / 50⌉ * 50)
      with hkeys
    have hnd : keys.Nodup := bucketKeys_nodup _ _ _ (le_refl _)
    have hmemA : ∀ p ∈ A, bucketOf p ∈ keys := all_prices_in_keys current
    constructor
    · rw [List.map_map]
      have : ((fun pt : ChartPoint => pt.allFlights) ∘ fun b =>
          ({ price := b, allFlights := A.countP (fun p => bucketOf p == b),
             filtered := F.countP (fun p => bucketOf p == b) } : ChartPoint)) =
          fun b => A.countP (fun p => bucketOf p == b) := rfl
      rw [this, sum_countP_buckets keys A hnd hmemA, hA,
        (sortNumAsc_perm _).length_eq, List.length_map]
    · intro hsub
      have hmemF : ∀ p ∈ F, bucketOf p ∈ keys := by
        intro p hp
        have hpF : p ∈ filtered.map (fun d => d.price) :=
          (sortNumAsc_perm _).mem_iff.mp hp
        have hpA : p ∈ A := by
          rw [hA, (sortNumAsc_perm _).mem_iff]
          exact hsub.subset hpF
        exact hmemA p hpA
      rw [List.map_map]
      have : ((fun pt : ChartPoint => pt.filtered) ∘ fun b =>
          ({ price := b, allFlights := A.countP (fun p => bucketOf p == b),
             filtered := F.countP (fun p => bucketOf p == b) } : ChartPoint)) =
          fun b => F.countP (fun p => bucketOf p == b) := rfl
      rw [this, sum_countP_buckets keys F hnd hmemF, hF,
        (sortNumAsc_perm _).length_eq, List.length_map]

/-- C10: when the filtered prices form a sub-multiset of the all-flights
prices, every produced bucket counts at most as many filtered flights as
all flights. -/
theorem bucket_filtered_le_all (current filtered : List PriceDataPoint)
    (hsub : List.Subperm (filtered.map (fun d => d.price))
      (current.map (fun d => d.price)))
    (pt : ChartPoint) (hpt : pt ∈ chartData current filtered) :
    pt.filtered ≤ pt.allFlights := by
  by_cases hne : current = []
  · subst hne
    rw [show chartData [] filtered = [] from rfl] at hpt
    cases hpt
  · rw [chartData_eq_of_ne_nil current filtered hne] at hpt
    obtain ⟨b, hb, rfl⟩ := List.mem_map.mp hpt
    have hFA : List.Subperm (sortNumAsc (filtered.map (fun d => d.price)))
        (sortNumAsc (current.map (fun d => d.price))) :=
      ((sortNumAsc_perm _).subperm).trans
        (hsub.trans ((sortNumAsc_perm _).symm.subperm))
    exact List.Subperm.countP_le _ hFA

/-- Chart point with price 100 for concrete bucket evaluations. -/
def ptA : PriceDataPoint :=
  { price := 100, dateInstant := { millis := 0, localHour := 9 },
    airline := "AA", stops := 0 }

/-- Chart point with price 500, outside the bucket range of ptA alone. -/
def ptB : PriceDataPoint :=
  { price := 500, dateInstant := { millis := 0, localHour := 9 },
    airline := "BB", stops := 1 }

/-- Helper: chart data of the single point ptA against one point d: one
bucket at 100 counting ptA, and d counted only if its bucket is 100. -/
theorem chartData_ptA (d : PriceDataPoint) :
    chartData [ptA] [d] =
      [{ price := 100, allFlights := 1,
         filtered := if (bucketOf d.price == 100) = true then 1 else 0 }] := by
  have h1 : sortNumAsc [(100:ℚ)] = [100] := by
    unfold sortNumAsc
    exact List.mergeSort_singleton 100
  have h2 : sortNumAsc [d.price] = [d.price] := by
    unfold sortNumAsc
    exact List.mergeSort_singleton _
  have hfl : (⌊(100:ℚ) / 50⌋ * 50 : ℤ) = 100 := by norm_num
  have hce : (⌈(100:ℚ) / 50⌉ * 50 : ℤ) = 100 := by
    have : ⌈(100:ℚ) / 50⌉ = (2:ℤ) := by
      rw [Int.ceil_eq_iff]
      norm_num
    rw [this]
    norm_num
  have hbA : bucketOf (100:ℚ) = 100 := by
    unfold bucketOf
    norm_num
  have hk : bucketKeys 100 100 = [100] := by
    rw [bucketKeys, if_neg (by norm_num), bucketKeys, if_pos (by norm_num)]
  rw [chartData_eq_of_ne_nil _ _ (by simp)]
  simp only [show ([ptA] : List PriceDataPoint).map (fun d => d.price) =
    [(100:ℚ)] from rfl]
  simp only [show ([d] : List PriceDataPoint).map (fun x => x.price) =
    [d.price] from rfl]
  rw [h1, h2]
  simp only [show listMin [(100:ℚ)] = 100 from rfl,
    show listMax [(100:ℚ)] = 100 from rfl]
  rw [hfl, hce, hk]
  simp only [List.map_cons, List.map_nil, List.countP_cons, List.countP_nil,
    hbA]
  simp

/-- C2 counterexample: for the all-flights price list with the single
price 100 and the filtered price list with the single price 500 (not a
sub-multiset of the former), the bucket range is built from the all set
only, the filtered price falls outside every created bucket, and the
filteredCount entries sum to 0 instead of the filtered size 1. -/
theorem bucket_conservation_counterexample :
    ((chartData [ptA] [ptB]).map (fun pt => pt.filtered)).sum ≠
      ([ptB] : List PriceDataPoint).length := by
  rw [chartData_ptA ptB]
  have hb : bucketOf (500:ℚ) = 500 := by
    unfold bucketOf
    norm_num
  simp [show ptB.price = (500:ℚ) from rfl, hb]

/-- Witness for C2 amended at a one-point input equal on both sides. -/
theorem bucket_conservation_witness :
    List.Subperm (([ptA] : List PriceDataPoint).map (fun d => d.price))
        (([ptA] : List PriceDataPoint).map (fun d => d.price)) ∧
      ((chartData [ptA] [ptA]).map (fun pt => pt.allFlights)).sum = 1 ∧
      ((chartData [ptA] [ptA]).map (fun pt => pt.filtered)).sum = 1 := by
  have hsub : List.Subperm (([ptA] : List PriceDataPoint).map (fun d => d.price))
      (([ptA] : List PriceDataPoint).map (fun d => d.price)) :=
    List.Subperm.refl _
  have h := bucket_conservation [ptA] [ptA]
  exact ⟨hsub, h.1, h.2 hsub⟩

/-- Witness for C10 at the one-point input: the single produced bucket has
filtered count 1 and all count 1. -/
theorem bucket_filtered_le_all_witness :
    List.Subperm (([ptA] : List PriceDataPoint).map (fun d => d.price))
        (([ptA] : List PriceDataPoint).map (fun d => d.price)) ∧
      ({ price := 100, allFlights := 1, filtered := 1 } : ChartPoint) ∈
        chartData [ptA] [ptA] ∧
      ({ price := 100, allFlights := 1, filtered := 1 } : ChartPoint).filtered ≤
        ({ price := 100, allFlights := 1, filtered := 1 } : ChartPoint).allFlights := by
  have hsub : List.Subperm (([ptA] : List PriceDataPoint).map (fun d => d.price))
      (([ptA] : List PriceDataPoint).map (fun d => d.price)) :=
    List.Subperm.refl _
  have hbA : bucketOf (100:ℚ) = 100 := by
    unfold bucketOf
    norm_num
  have hmem : ({ price := 100, allFlights := 1, filtered := 1 } : ChartPoint) ∈
      chartData [ptA] [ptA] := by
    rw [chartData_ptA ptA]
    simp [show ptA.price = (100:ℚ) from rfl, hbA]
  exact ⟨hsub, hmem, bucket_filtered_le_all [ptA] [ptA] hsub _ hmem⟩

/-- Helper: on a non-empty list the spread minimum is at most the spread
maximum. -/
theorem listMin_le_listMax (l : List ℚ) (hne : l ≠ []) :
    listMin l ≤ listMax l := by
  cases l with
  | nil => exact absurd rfl hne
  | cons y ys =>
    exact le_trans (listMin_le _ y (List.mem_cons_self _ _))
      (le_listMax _ y (List.mem_cons_self _ _))

/-- C7: aggregating two empty sets yields no buckets and all-zero
statistics, and aggregating a non-empty all set against an empty filtered
set yields all-zero statistics while still producing a non-empty bucket
sequence; the rational model has no NaN or Infinity to propagate, the
degenerate guards return early instead. -/
theorem degenerate_aggregation :
    chartData (generatePriceData []) (generatePriceData []) = [] ∧
      calculatePriceStats [] = { lowest := 0, highest := 0, average := 0 } ∧
      ∀ allFlights : List ProcessedFlight, allFlights ≠ [] →
        chartData (generatePriceData allFlights) (generatePriceData []) ≠ [] := by
  refine ⟨rfl, rfl, ?_⟩
  intro all hne
  have hcur : generatePriceData all ≠ [] := by
    simp [generatePriceData, hne]
  rw [chartData_eq_of_ne_nil _ _ hcur]
  set A := sortNumAsc ((generatePriceData all).map (fun d => d.price)) with hA
  have hAne : A ≠ [] := by
    rw [hA, ← List.length_pos]
    rw [(sortNumAsc_perm _).length_eq, List.length_map]
    simpa [List.length_pos] using hcur
  have hmM : listMin A ≤ listMax A := listMin_le_listMax A hAne
  have hlohi : ⌊listMin A / 50⌋ * 50 ≤ ⌈listMax A / 50⌉ * 50 :=
    le_trans (lo_le_bucketOf (le_refl (listMin A))) (bucketOf_le_hi hmM)
  intro hmap
  have hkeys : bucketKeys (⌊listMin A / 50⌋ * 50) (⌈listMax A / 50⌉ * 50) = [] := by
    cases h : bucketKeys (⌊listMin A / 50⌋ * 50) (⌈listMax A / 50⌉ * 50) with
    | nil => rfl
    | cons b bs =>
      rw [h] at hmap
      simp at hmap
  rw [bucketKeys] at hkeys
  by_cases hc : ⌈listMax A / 50⌉ * 50 < ⌊listMin A / 50⌋ * 50
  · omega
  · rw [if_neg hc] at hkeys
    cases hkeys

/-- Witness for C7 at a single-flight all set. -/
theorem degenerate_aggregation_witness :
    ([mkTestFlight "w" 0] : List ProcessedFlight) ≠ [] ∧
      chartData (generatePriceData [mkTestFlight "w" 0])
        (generatePriceData []) ≠ [] := by
  have hne : ([mkTestFlight "w" 0] : List ProcessedFlight) ≠ [] := by simp
  exact ⟨hne, degenerate_aggregation.2.2 [mkTestFlight "w" 0] hne⟩
